import Mathlib

/-!
# Snowflake-style identifier generator (`plugins/mysql/util/id.go`)

A shallow embedding of the `IdWorker` of package `util` and a verification of its
contract.  Every `uint32` of the Go source is a natural number here, and each
operation that can overflow is reduced modulo `2 ^ 32` explicitly.  The wall
clock is the only source of non-determinism: it is a list holding the successive
values of `time.Now().UnixNano()`, and every call of `timeGen` takes the next one.
A call that needs a reading when the list is used up has no result (`none`).
-/

namespace Util

/-! ## Machine arithmetic -/

/-- Conversion of a Go integer to `uint32`: the low 32 bits. -/
def uint32 (x : Int) : Nat := (x % 2 ^ 32).toNat

/-- Addition of two `uint32` values. -/
def add32 (a b : Nat) : Nat := (a + b) % 2 ^ 32

/-- Subtraction of two `uint32` values, which wraps below zero. -/
def sub32 (a b : Nat) : Nat := (a + (2 ^ 32 - b % 2 ^ 32)) % 2 ^ 32

/-- Left shift of a `uint32` value: the bits shifted past bit 31 are lost. -/
def shl32 (a n : Nat) : Nat := (a <<< n) % 2 ^ 32

/-! ## Constants (`id.go`, lines 13-24) -/

def SnsEpoch : Nat := 1490595737
def workerIdBits : Nat := 5
def datacenterIdBits : Nat := 5
/-- In Go `-1 ^ (-1 << workerIdBits)`, an untyped constant. -/
def maxWorkerId : Nat := (Int.xor (-1) ((-1 : Int) <<< (workerIdBits : Int))).toNat
/-- In Go `-1 ^ (-1 << datacenterIdBits)`. -/
def maxDatacenterId : Nat := (Int.xor (-1) ((-1 : Int) <<< (datacenterIdBits : Int))).toNat
def sequenceBits : Nat := 12
def workerIdShift : Nat := sequenceBits
def datacenterIdShift : Nat := sequenceBits + workerIdBits
def timestampLeftShift : Nat := sequenceBits + workerIdBits + datacenterIdBits
/-- In Go `-1 ^ (-1 << sequenceBits)`. -/
def sequenceMask : Nat := (Int.xor (-1) ((-1 : Int) <<< (sequenceBits : Int))).toNat

/-! ## Data model -/

/-- The generator state (`type IdWorker struct`); the mutex is not part of the
sequential model. -/
structure IdWorker where
  sequence : Nat
  lastTimestamp : Nat
  workerId : Nat
  snsEpoch : Nat
  datacenterId : Nat
  deriving DecidableEq, Repr

/-- The three errors the package creates with `errors.New`; the argument is the
number formatted into the message. -/
inductive Error where
  /-- Message `worker Id: %d error`. -/
  | workerIdError (workerId : Nat)
  /-- Message `datacenter Id: %d error`. -/
  | datacenterIdError (datacenterId : Nat)
  /-- Message `Clock moved backwards.  Refusing to generate id for %d milliseconds`. -/
  | clockMovedBackwards (milliseconds : Nat)
  deriving DecidableEq, Repr

/-! ## Operations -/

/-- Go `NewIdWorker`: returns the pair `(*IdWorker, error)`, with `none` for `nil`. -/
def NewIdWorker (workerId datacenterId snsEpoch : Nat) : Option IdWorker × Option Error :=
  if workerId > maxWorkerId ∨ workerId < 0 then
    (none, some (Error.workerIdError workerId))
  else if datacenterId > maxDatacenterId ∨ datacenterId < 0 then
    (none, some (Error.datacenterIdError datacenterId))
  else
    (some { workerId := workerId, datacenterId := datacenterId, lastTimestamp := 1,
            sequence := 0, snsEpoch := snsEpoch }, none)

/-- Go `timeGen`, as a function of the value `now` that `time.Now().UnixNano()`
gives: `uint32(now / int64(time.Millisecond))`, the division truncating. -/
def timeGen (now : Int) : Nat := uint32 (Int.tdiv now 1000000)

/-- Go `tilNextMillis`: reads the clock until a reading exceeds `lastTimestamp`;
returns that reading and the rest of the clock. -/
def tilNextMillis (lastTimestamp : Nat) : List Int → Option (Nat × List Int)
  | [] => none
  | now :: clock =>
    if timeGen now ≤ lastTimestamp then tilNextMillis lastTimestamp clock
    else some (timeGen now, clock)

/-- The expression returned on line 88 of `id.go`, for the worker as it is after
the updates of `sequence` and `lastTimestamp`. -/
def packId (id : IdWorker) (timestamp : Nat) : Nat :=
  shl32 (sub32 timestamp id.snsEpoch) timestampLeftShift
    ||| shl32 id.datacenterId datacenterIdShift
    ||| shl32 id.workerId workerIdShift
    ||| id.sequence

/-- Lines 87-88 of `NextId`: store the timestamp and return the identifier. -/
def emit (id : IdWorker) (sequence timestamp : Nat) (clock : List Int) :
    Option ((Nat × Option Error) × IdWorker × List Int) :=
  let id1 : IdWorker := { id with sequence := sequence, lastTimestamp := timestamp }
  some ((packId id1 timestamp, none), id1, clock)

/-- Go `IdWorker.NextId`: the returned pair `(uint32, error)`, the worker after
the call and the clock readings left. -/
def NextId (id : IdWorker) : List Int → Option ((Nat × Option Error) × IdWorker × List Int)
  | [] => none
  | now :: clock =>
    let timestamp := timeGen now
    if timestamp < id.lastTimestamp then
      some ((0, some (Error.clockMovedBackwards (sub32 id.lastTimestamp timestamp))), id, clock)
    else if id.lastTimestamp = timestamp then
      let sequence := add32 id.sequence 1 &&& sequenceMask
      if sequence = 0 then
        match tilNextMillis id.lastTimestamp clock with
        | none => none
        | some (timestamp1, clock1) => emit id sequence timestamp1 clock1
      else emit id sequence timestamp clock
    else emit id 0 timestamp clock

/-- A caller that invokes `NextId` up to `n` times in succession on one worker:
the returned pair and the worker after each call, in order, until the clock
readings are used up. -/
def nextIds : Nat → IdWorker → List Int → List ((Nat × Option Error) × IdWorker)
  | 0, _, _ => []
  | n + 1, id, clock =>
    match NextId id clock with
    | none => []
    | some (r, id1, clock1) => (r, id1) :: nextIds n id1 clock1

/-! ## Predicates used in the statements -/

/-- What a successful call does to the worker. -/
structure Issued (id : IdWorker) (v : Nat) (id1 : IdWorker) : Prop where
  workerId : id1.workerId = id.workerId
  datacenterId : id1.datacenterId = id.datacenterId
  snsEpoch : id1.snsEpoch = id.snsEpoch
  value : v = packId id1 id1.lastTimestamp
  bound : id1.sequence ≤ 4095
  stamp : id1.lastTimestamp < 4294967296
  progress : (id1.lastTimestamp = id.lastTimestamp ∧ id1.sequence = (id.sequence + 1) % 4096
      ∧ id1.sequence ≠ 0) ∨ (id.lastTimestamp < id1.lastTimestamp ∧ id1.sequence = 0)

/-! ## Evaluation of the constants -/

theorem maxWorkerId_eq : maxWorkerId = 31 := by decide
theorem maxDatacenterId_eq : maxDatacenterId = 31 := by decide
theorem sequenceMask_eq : sequenceMask = 4095 := by decide

/-! ## Arithmetic of the identifier layout -/

theorem timeGen_lt (now : Int) : timeGen now < 4294967296 := by
  unfold timeGen uint32
  generalize Int.tdiv now 1000000 = m
  omega

theorem or_mod_two_pow (a b n : Nat) : (a ||| b) % 2 ^ n = a % 2 ^ n ||| b % 2 ^ n := by
  apply Nat.eq_of_testBit_eq
  intro i
  simp only [Nat.testBit_mod_two_pow, Nat.testBit_or]
  cases decide (i < n) <;> simp

theorem shifts_eq : timestampLeftShift = 22 ∧ datacenterIdShift = 17 ∧ workerIdShift = 12 := by
  decide

/-- With the three low fields in range, the bitwise OR of line 88 is a sum of
disjoint fields, and only the low ten bits of the timestamp offset are kept. -/
theorem packId_eq (id : IdWorker) (t : Nat) (hw : id.workerId ≤ 31) (hd : id.datacenterId ≤ 31)
    (hs : id.sequence ≤ 4095) :
    packId id t = (sub32 t id.snsEpoch % 1024) * 4194304 + id.datacenterId * 131072
      + id.workerId * 4096 + id.sequence := by
  unfold packId shl32
  rw [shifts_eq.1, shifts_eq.2.1, shifts_eq.2.2]
  simp only [Nat.shiftLeft_eq]
  generalize sub32 t id.snsEpoch = o
  have e1 : o * 2 ^ 22 % 2 ^ 32 = 2 ^ 22 * (o % 1024) := by omega
  have e2 : id.datacenterId * 2 ^ 17 % 2 ^ 32 = id.datacenterId * 131072 := by omega
  have e3 : id.workerId * 2 ^ 12 % 2 ^ 32 = id.workerId * 4096 := by omega
  rw [e1, e2, e3]
  rw [← Nat.mul_add_lt_is_or (by omega) (o % 1024)]
  have e4 : 2 ^ 22 * (o % 1024) + id.datacenterId * 131072
      = 2 ^ 17 * ((o % 1024) * 32 + id.datacenterId) := by omega
  rw [e4, ← Nat.mul_add_lt_is_or (by omega)]
  have e5 : 2 ^ 17 * ((o % 1024) * 32 + id.datacenterId) + id.workerId * 4096
      = 2 ^ 12 * ((o % 1024) * 1024 + id.datacenterId * 32 + id.workerId) := by omega
  rw [e5, ← Nat.mul_add_lt_is_or (by omega)]
  omega

/-- The low twelve bits of an identifier hold the sequence, whatever the other
fields are. -/
theorem packId_mod (id : IdWorker) (t : Nat) (hs : id.sequence ≤ 4095) :
    packId id t % 4096 = id.sequence := by
  unfold packId shl32
  rw [shifts_eq.1, shifts_eq.2.1, shifts_eq.2.2]
  have h := or_mod_two_pow
  have p : (4096 : Nat) = 2 ^ 12 := by norm_num
  rw [p, h, h, h]
  simp only [Nat.shiftLeft_eq]
  have e1 : sub32 t id.snsEpoch * 2 ^ 22 % 2 ^ 32 % 2 ^ 12 = 0 := by omega
  have e2 : id.datacenterId * 2 ^ 17 % 2 ^ 32 % 2 ^ 12 = 0 := by omega
  have e3 : id.workerId * 2 ^ 12 % 2 ^ 32 % 2 ^ 12 = 0 := by omega
  have e4 : id.sequence % 2 ^ 12 = id.sequence := by omega
  rw [e1, e2, e3, e4]
  simp

theorem seq_step (s : Nat) : add32 s 1 &&& sequenceMask = (s + 1) % 4096 := by
  rw [sequenceMask_eq]
  have := Nat.and_pow_two_sub_one_eq_mod (add32 s 1) 12
  norm_num at this
  rw [this]
  unfold add32
  omega


/-! ## One call of `tilNextMillis` and of `NextId` -/

theorem tilNextMillis_some {last : Nat} {clock : List Int} {t : Nat} {rest : List Int}
    (h : tilNextMillis last clock = some (t, rest)) :
    last < t ∧ t < 4294967296 ∧ ∃ pre now, clock = pre ++ now :: rest ∧ t = timeGen now ∧
      ∀ p ∈ pre, timeGen p ≤ last := by
  induction clock with
  | nil => simp [tilNextMillis] at h
  | cons now clock ih =>
    unfold tilNextMillis at h
    by_cases c : timeGen now ≤ last
    · rw [if_pos c] at h
      obtain ⟨h1, h2, pre, nw, h3, h4, h5⟩ := ih h
      refine ⟨h1, h2, now :: pre, nw, by simp [h3], h4, ?_⟩
      intro p hp
      rcases List.mem_cons.1 hp with rfl | hp
      · exact c
      · exact h5 p hp
    · rw [if_neg c] at h
      simp only [Option.some.injEq, Prod.mk.injEq] at h
      obtain ⟨rfl, rfl⟩ := h
      exact ⟨by omega, timeGen_lt now, [], now, rfl, rfl, by simp⟩

theorem tilNextMillis_of_mem {last : Nat} {clock : List Int}
    (h : ∃ now ∈ clock, last < timeGen now) :
    ∃ t rest, tilNextMillis last clock = some (t, rest) := by
  induction clock with
  | nil => simp at h
  | cons now clock ih =>
    unfold tilNextMillis
    by_cases c : timeGen now ≤ last
    · rw [if_pos c]
      apply ih
      obtain ⟨x, hx, hl⟩ := h
      rcases List.mem_cons.1 hx with rfl | hx
      · omega
      · exact ⟨x, hx, hl⟩
    · rw [if_neg c]
      exact ⟨_, _, rfl⟩

theorem NextId_ok {id : IdWorker} {clock : List Int} {v : Nat} {id1 : IdWorker}
    {clock1 : List Int} (h : NextId id clock = some ((v, none), id1, clock1)) :
    Issued id v id1 := by
  cases clock with
  | nil => simp [NextId] at h
  | cons now clock =>
    have hlt := timeGen_lt now
    simp only [NextId, seq_step] at h
    split_ifs at h with c1 c2 c3
    · simp at h
    · cases ht : tilNextMillis id.lastTimestamp clock with
      | none => simp [ht] at h
      | some p =>
        obtain ⟨t, rest⟩ := p
        have hs := tilNextMillis_some ht
        simp only [ht, emit, Option.some.injEq, Prod.mk.injEq] at h
        obtain ⟨⟨rfl, -⟩, rfl, rfl⟩ := h
        exact ⟨rfl, rfl, rfl, rfl, by simp [c3], hs.2.1, Or.inr ⟨hs.1, c3⟩⟩
    · simp only [emit, Option.some.injEq, Prod.mk.injEq] at h
      obtain ⟨⟨rfl, -⟩, rfl, rfl⟩ := h
      refine ⟨rfl, rfl, rfl, rfl, ?_, hlt, Or.inl ⟨c2.symm, rfl, c3⟩⟩
      show (id.sequence + 1) % 4096 ≤ 4095
      omega
    · simp only [emit, Option.some.injEq, Prod.mk.injEq] at h
      obtain ⟨⟨rfl, -⟩, rfl, rfl⟩ := h
      refine ⟨rfl, rfl, rfl, rfl, by simp, hlt, Or.inr ⟨?_, rfl⟩⟩
      show id.lastTimestamp < timeGen now
      omega

theorem NextId_err {id : IdWorker} {clock : List Int} {v : Nat} {e : Error} {id1 : IdWorker}
    {clock1 : List Int} (h : NextId id clock = some ((v, some e), id1, clock1)) :
    v = 0 ∧ id1 = id ∧ ∃ now, clock = now :: clock1 ∧ timeGen now < id.lastTimestamp ∧
      e = Error.clockMovedBackwards (sub32 id.lastTimestamp (timeGen now)) := by
  cases clock with
  | nil => simp [NextId] at h
  | cons now clock =>
    simp only [NextId] at h
    split_ifs at h with c1 c2 c3
    · simp only [Option.some.injEq, Prod.mk.injEq] at h
      obtain ⟨⟨rfl, he⟩, rfl, rfl⟩ := h
      exact ⟨rfl, rfl, now, rfl, c1, he.symm⟩
    · cases ht : tilNextMillis id.lastTimestamp clock with
      | none => simp [ht] at h
      | some p => simp [ht, emit] at h
    · simp [emit] at h
    · simp [emit] at h


theorem NextId_some {id : IdWorker} {clock : List Int} {r : Nat × Option Error}
    {id1 : IdWorker} {clock1 : List Int} (h : NextId id clock = some (r, id1, clock1)) :
    (r.2 ≠ none ∧ r.1 = 0 ∧ id1 = id) ∨ (r.2 = none ∧ Issued id r.1 id1) := by
  obtain ⟨v, e⟩ := r
  cases e with
  | none => exact Or.inr ⟨rfl, NextId_ok h⟩
  | some e =>
    have := NextId_err h
    exact Or.inl ⟨by simp, this.1, this.2.1⟩

/-- The successful call in terms of the reading `now` taken on entry. -/
theorem NextId_cons_ok {id : IdWorker} {now : Int} {clock : List Int} {v : Nat}
    {id1 : IdWorker} {clock1 : List Int}
    (h : NextId id (now :: clock) = some ((v, none), id1, clock1)) :
    (id.lastTimestamp < timeGen now ∧ id1.lastTimestamp = timeGen now ∧ id1.sequence = 0
        ∧ clock1 = clock) ∨
    (id.lastTimestamp = timeGen now ∧ id1.sequence = (id.sequence + 1) % 4096 ∧
      ((id1.sequence ≠ 0 ∧ id1.lastTimestamp = id.lastTimestamp ∧ clock1 = clock) ∨
       (id1.sequence = 0 ∧ tilNextMillis id.lastTimestamp clock
          = some (id1.lastTimestamp, clock1)))) := by
  simp only [NextId, seq_step] at h
  split_ifs at h with c1 c2 c3
  · simp at h
  · cases ht : tilNextMillis id.lastTimestamp clock with
    | none => simp [ht] at h
    | some p =>
      obtain ⟨t, rest⟩ := p
      simp only [ht, emit, Option.some.injEq, Prod.mk.injEq] at h
      obtain ⟨-, rfl, rfl⟩ := h
      exact Or.inr ⟨c2, c3.symm ▸ rfl, Or.inr ⟨c3, rfl⟩⟩
  · simp only [emit, Option.some.injEq, Prod.mk.injEq] at h
    obtain ⟨-, rfl, rfl⟩ := h
    exact Or.inr ⟨c2, rfl, Or.inl ⟨c3, c2.symm, rfl⟩⟩
  · simp only [emit, Option.some.injEq, Prod.mk.injEq] at h
    obtain ⟨-, rfl, rfl⟩ := h
    refine Or.inl ⟨?_, rfl, rfl, rfl⟩
    omega

/-- The wait: readings at or below `last` are skipped, the first one above is returned. -/
theorem tilNextMillis_append (last : Nat) (next : Int) (rest : List Int)
    (hnext : last < timeGen next) :
    ∀ (spin : List Int), (∀ now ∈ spin, timeGen now ≤ last) →
    tilNextMillis last (spin ++ next :: rest) = some (timeGen next, rest) := by
  intro spin
  induction spin with
  | nil =>
    intro _
    simp only [List.nil_append, tilNextMillis]
    rw [if_neg (by omega)]
  | cons now spin ih =>
    intro h
    simp only [List.cons_append, tilNextMillis]
    rw [if_pos (h now (List.mem_cons_self _ _))]
    exact ih (fun x hx => h x (List.mem_cons_of_mem _ hx))

/-- One call in the millisecond the worker is already in, with room in the sequence. -/
theorem NextId_same_ms (id : IdWorker) (now : Int) (clock : List Int)
    (ht : timeGen now = id.lastTimestamp) (hs : id.sequence + 1 ≤ 4095) :
    NextId id (now :: clock) = some
      ((packId { id with sequence := id.sequence + 1 } id.lastTimestamp, none),
        { id with sequence := id.sequence + 1 }, clock) := by
  have e : (id.sequence + 1) % 4096 = id.sequence + 1 := by omega
  simp only [NextId, seq_step, ht, lt_irrefl, if_false, if_true, e, emit]
  rw [if_neg (by omega)]

/-! ## Runs of successive calls -/

theorem nextIds_succ_some {n : Nat} {id : IdWorker} {clock : List Int} {r : Nat × Option Error}
    {id1 : IdWorker} {clock1 : List Int} (h : NextId id clock = some (r, id1, clock1)) :
    nextIds (n + 1) id clock = (r, id1) :: nextIds n id1 clock1 := by
  simp [nextIds, h]

theorem nextIds_succ_cases (n : Nat) (id : IdWorker) (clock : List Int) :
    nextIds (n + 1) id clock = [] ∨ ∃ r id1 clock1, NextId id clock = some (r, id1, clock1) ∧
      nextIds (n + 1) id clock = (r, id1) :: nextIds n id1 clock1 := by
  cases h : NextId id clock with
  | none => left; simp [nextIds, h]
  | some p =>
    obtain ⟨r, id1, clock1⟩ := p
    exact Or.inr ⟨r, id1, clock1, rfl, nextIds_succ_some h⟩

/-- Every entry of a run keeps the identity of the starting worker, and its position
`lastTimestamp * 4096 + sequence` in the order of issue is at or after the start,
strictly after when the call succeeded. -/
theorem nextIds_mem (n : Nat) : ∀ (id : IdWorker) (clock : List Int),
    ∀ x ∈ nextIds n id clock,
      x.2.workerId = id.workerId ∧ x.2.datacenterId = id.datacenterId ∧
      x.2.snsEpoch = id.snsEpoch ∧ id.lastTimestamp ≤ x.2.lastTimestamp ∧
      (x.1.2 = none → x.1.1 = packId x.2 x.2.lastTimestamp ∧ x.2.sequence ≤ 4095 ∧
        x.2.lastTimestamp < 4294967296) ∧
      (id.sequence ≤ 4095 → x.2.sequence ≤ 4095 ∧
        id.lastTimestamp * 4096 + id.sequence ≤ x.2.lastTimestamp * 4096 + x.2.sequence ∧
        (x.1.2 = none →
          id.lastTimestamp * 4096 + id.sequence < x.2.lastTimestamp * 4096 + x.2.sequence)) := by
  induction n with
  | zero => intro id clock x hx; simp [nextIds] at hx
  | succ n ih =>
    intro id clock x hx
    rcases nextIds_succ_cases n id clock with h | ⟨r, id1, clock1, h, heq⟩
    · rw [h] at hx; simp at hx
    · rw [heq] at hx
      rcases NextId_some h with ⟨hne, -, rfl⟩ | ⟨hn, hi⟩
      · rcases List.mem_cons.1 hx with rfl | hx
        · simp only [le_refl, true_and]
          exact ⟨fun c => absurd c hne, fun c => ⟨c, fun c2 => absurd c2 hne⟩⟩
        · exact ih id1 clock1 x hx
      · have hp := hi.progress
        have hb := hi.bound
        rcases List.mem_cons.1 hx with rfl | hx
        · refine ⟨hi.workerId, hi.datacenterId, hi.snsEpoch, ?_,
            fun _ => ⟨hi.value, hb, hi.stamp⟩, fun hs => ⟨hb, ?_, fun _ => ?_⟩⟩
          · show id.lastTimestamp ≤ id1.lastTimestamp
            omega
          · show id.lastTimestamp * 4096 + id.sequence
              ≤ id1.lastTimestamp * 4096 + id1.sequence
            omega
          · show id.lastTimestamp * 4096 + id.sequence
              < id1.lastTimestamp * 4096 + id1.sequence
            omega
        · obtain ⟨h1, h2, h3, h4, h5, h6⟩ := ih id1 clock1 x hx
          refine ⟨h1.trans hi.workerId, h2.trans hi.datacenterId, h3.trans hi.snsEpoch,
            by omega, h5, fun hs => ?_⟩
          obtain ⟨k1, k2, k3⟩ := h6 hb
          exact ⟨k1, by omega, fun c => by have := k3 c; omega⟩

/-- Along a run that starts with the sequence in range, a successful call always
ends strictly later in the order of issue than every earlier call. -/
theorem nextIds_pairwise (n : Nat) : ∀ (id : IdWorker) (clock : List Int),
    id.sequence ≤ 4095 →
    (nextIds n id clock).Pairwise (fun x y => x.1.2 = none → y.1.2 = none →
      x.2.lastTimestamp * 4096 + x.2.sequence < y.2.lastTimestamp * 4096 + y.2.sequence) := by
  induction n with
  | zero => intro id clock _; simp [nextIds]
  | succ n ih =>
    intro id clock hs
    rcases nextIds_succ_cases n id clock with h | ⟨r, id1, clock1, h, heq⟩
    · rw [h]; exact List.Pairwise.nil
    · rw [heq]
      have hb : id1.sequence ≤ 4095 := by
        rcases NextId_some h with ⟨-, -, rfl⟩ | ⟨-, hi⟩
        · exact hs
        · exact hi.bound
      refine List.Pairwise.cons ?_ (ih id1 clock1 hb)
      intro y hy _ hyn
      exact ((nextIds_mem n id1 clock1 y hy).2.2.2.2.2 hb).2.2 hyn


/-- Two neighbouring entries of a run are one call apart. -/
theorem nextIds_consecutive (n : Nat) : ∀ (id : IdWorker) (clock : List Int) (i : Nat)
    (r1 r2 : Nat × Option Error) (x y : IdWorker),
    (nextIds n id clock)[i]? = some (r1, x) → (nextIds n id clock)[i + 1]? = some (r2, y) →
    ∃ c c1, NextId x c = some (r2, y, c1) := by
  induction n with
  | zero => intro id clock i r1 r2 x y h; simp [nextIds] at h
  | succ n ih =>
    intro id clock i r1 r2 x y h1 h2
    rcases nextIds_succ_cases n id clock with h | ⟨r, id1, clock1, h, heq⟩
    · rw [h] at h1; simp at h1
    · rw [heq] at h1 h2
      cases i with
      | succ i =>
        simp only [List.getElem?_cons_succ] at h1 h2
        exact ih id1 clock1 i r1 r2 x y h1 h2
      | zero =>
        simp only [List.getElem?_cons_zero, Option.some.injEq, Prod.mk.injEq] at h1
        simp only [zero_add, List.getElem?_cons_succ] at h2
        obtain ⟨-, rfl⟩ := h1
        cases n with
        | zero => simp [nextIds] at h2
        | succ n =>
          rcases nextIds_succ_cases n id1 clock1 with h3 | ⟨r3, id3, clock3, h3, heq3⟩
          · rw [h3] at h2; simp at h2
          · rw [heq3] at h2
            simp only [List.getElem?_cons_zero, Option.some.injEq, Prod.mk.injEq] at h2
            obtain ⟨rfl, rfl⟩ := h2
            exact ⟨clock1, clock3, h3⟩

theorem nextIds_lastTimestamp (n : Nat) : ∀ (id : IdWorker) (clock : List Int),
    List.Pairwise (fun s t => s ≤ t)
      (id.lastTimestamp :: (nextIds n id clock).map (fun x => x.2.lastTimestamp)) := by
  induction n with
  | zero => intro id clock; simp [nextIds]
  | succ n ih =>
    intro id clock
    refine List.Pairwise.cons ?_ ?_
    · intro t ht
      obtain ⟨x, hx, rfl⟩ := List.mem_map.1 ht
      exact (nextIds_mem (n + 1) id clock x hx).2.2.2.1
    · rcases nextIds_succ_cases n id clock with h | ⟨r, id1, clock1, h, heq⟩
      · rw [h]; exact List.Pairwise.nil
      · rw [heq]
        exact ih id1 clock1

/-- Calls in one millisecond: each reading equal to `lastTimestamp` yields the next
sequence value. -/
theorem nextIds_same_ms (t : Nat) (id0 : IdWorker) : ∀ (same : List Int) (s m : Nat)
    (rest : List Int), (∀ now ∈ same, timeGen now = t) → s + same.length ≤ 4095 →
    nextIds (same.length + m) { id0 with sequence := s, lastTimestamp := t } (same ++ rest)
      = (List.range same.length).map (fun j =>
          ((packId { id0 with sequence := s + 1 + j, lastTimestamp := t } t, none),
            { id0 with sequence := s + 1 + j, lastTimestamp := t }))
        ++ nextIds m { id0 with sequence := s + same.length, lastTimestamp := t } rest := by
  intro same
  induction same with
  | nil => intro s m rest _ _; simp
  | cons now same ih =>
    intro s m rest hsame hlen
    simp only [List.length_cons] at hlen ⊢
    have h1 := NextId_same_ms { id0 with sequence := s, lastTimestamp := t } now (same ++ rest)
      (hsame now (List.mem_cons_self _ _)) (by simp only; omega)
    have e : same.length + 1 + m = (same.length + m) + 1 := by omega
    rw [e, List.cons_append, nextIds_succ_some h1]
    have h2 := ih (s + 1) m rest (fun x hx => hsame x (List.mem_cons_of_mem _ hx)) (by omega)
    simp only at h2 ⊢
    rw [h2, List.range_succ_eq_map, List.map_cons, List.map_map, List.cons_append]
    have e2 : s + 1 + same.length = s + (same.length + 1) := by omega
    rw [e2]
    congr 2
    apply List.map_congr_left
    intro j _
    simp only [Function.comp, Nat.succ_eq_add_one]
    have e3 : s + 1 + 1 + j = s + 1 + (j + 1) := by omega
    rw [e3]

/-! ## Construction -/

theorem NewIdWorker_ok {a d e : Nat} {w : IdWorker} (h : NewIdWorker a d e = (some w, none)) :
    w = { sequence := 0, lastTimestamp := 1, workerId := a, snsEpoch := e, datacenterId := d }
      ∧ a ≤ 31 ∧ d ≤ 31 := by
  unfold NewIdWorker at h
  rw [maxWorkerId_eq, maxDatacenterId_eq] at h
  split_ifs at h with c1 c2
  · simp at h
  · simp at h
  · simp only [Prod.mk.injEq, Option.some.injEq, and_true] at h
    exact ⟨h.symm, by omega, by omega⟩

/-! ## Identifiers of one worker and of two workers -/

theorem and31 (x : Nat) : x &&& 31 = x % 32 := by
  have := Nat.and_pow_two_sub_one_eq_mod x 5
  norm_num at this
  exact this

theorem and4095 (x : Nat) : x &&& 4095 = x % 4096 := by
  have := Nat.and_pow_two_sub_one_eq_mod x 12
  norm_num at this
  exact this

/-- Two workers with the same identity, the second later in the order of issue,
carry different identifiers unless their timestamps differ by a multiple of 1024. -/
theorem packId_ne {x y : IdWorker} (hw : x.workerId = y.workerId) (hw1 : y.workerId ≤ 31)
    (hd : x.datacenterId = y.datacenterId) (hd1 : y.datacenterId ≤ 31)
    (he : x.snsEpoch = y.snsEpoch) (hx : x.sequence ≤ 4095) (hy : y.sequence ≤ 4095)
    (hlt : x.lastTimestamp * 4096 + x.sequence < y.lastTimestamp * 4096 + y.sequence)
    (ht : x.lastTimestamp = y.lastTimestamp ∨
      x.lastTimestamp % 1024 ≠ y.lastTimestamp % 1024) :
    packId x x.lastTimestamp ≠ packId y y.lastTimestamp := by
  rw [packId_eq x _ (by omega) (by omega) hx, packId_eq y _ hw1 hd1 hy, hw, hd, he]
  unfold sub32
  omega

/-- An identifier is the identifier with sequence 0, a multiple of 4096, plus the
sequence. -/
theorem packId_split (id : IdWorker) (t : Nat) (hs : id.sequence ≤ 4095) :
    packId id t = packId { id with sequence := 0 } t + id.sequence ∧
    packId { id with sequence := 0 } t % 4096 = 0 := by
  have h0 := packId_mod { id with sequence := 0 } t (by simp)
  simp only at h0
  refine ⟨?_, h0⟩
  have hx : packId { id with sequence := 0 } t
      = 2 ^ 12 * (packId { id with sequence := 0 } t / 4096) := by omega
  have hor : packId id t = packId { id with sequence := 0 } t ||| id.sequence := by
    simp only [packId, Nat.or_zero]
  rw [hor]
  nth_rewrite 1 [hx]
  nth_rewrite 2 [hx]
  exact (Nat.mul_add_lt_is_or (by omega) _).symm

/-- Bits 12 to 21 of an identifier hold the datacenter id and the worker id. -/
theorem packId_identity (id : IdWorker) (t : Nat) (hw : id.workerId ≤ 31)
    (hd : id.datacenterId ≤ 31) (hs : id.sequence ≤ 4095) :
    packId id t / 4096 % 1024 = id.datacenterId * 32 + id.workerId := by
  rw [packId_eq id t hw hd hs]
  omega


/-! ## The contract of the generator -/

/-- C1 does not hold of the code: two successful calls on one worker can return the
same identifier.  The worker `NewIdWorker 0 0 0` reads the clock at 2 ms and then at
1026 ms and returns 8388608 both times; the worker `NewIdWorker 0 0 SnsEpoch` reads
the clock on 2026-11-04 at 12:00:00 UTC and 1024 ms later and returns 2579496960
both times.  The shift by 22 of a `uint32` keeps only the low ten bits of the
timestamp. -/
theorem uniqueness_counterexample :
    NewIdWorker 0 0 0 = (some { sequence := 0, lastTimestamp := 1, workerId := 0,
                                snsEpoch := 0, datacenterId := 0 }, none) ∧
    nextIds 2 { sequence := 0, lastTimestamp := 1, workerId := 0,
                snsEpoch := 0, datacenterId := 0 } [2000000, 1026000000]
      = [((8388608, none), { sequence := 0, lastTimestamp := 2, workerId := 0,
                             snsEpoch := 0, datacenterId := 0 }),
         ((8388608, none), { sequence := 0, lastTimestamp := 1026, workerId := 0,
                             snsEpoch := 0, datacenterId := 0 })] ∧
    ¬ (nextIds 2 { sequence := 0, lastTimestamp := 1, workerId := 0,
                   snsEpoch := 0, datacenterId := 0 } [2000000, 1026000000]).Pairwise
        (fun x y => x.1.2 = none → y.1.2 = none → x.1.1 ≠ y.1.1) ∧
    NewIdWorker 0 0 SnsEpoch
      = (some { sequence := 0, lastTimestamp := 1, workerId := 0,
                snsEpoch := 1490595737, datacenterId := 0 }, none) ∧
    nextIds 2 { sequence := 0, lastTimestamp := 1, workerId := 0,
                snsEpoch := 1490595737, datacenterId := 0 }
        [1793793600000000000, 1793793601024000000]
      = [((2579496960, none), { sequence := 0, lastTimestamp := 2792237568, workerId := 0,
                                snsEpoch := 1490595737, datacenterId := 0 }),
         ((2579496960, none), { sequence := 0, lastTimestamp := 2792238592, workerId := 0,
                                snsEpoch := 1490595737, datacenterId := 0 })] := by
  decide

/-- The extent of the collisions: on a worker built by `NewIdWorker`, two successful
calls of a run return the same identifier exactly when their timestamps are
different, congruent modulo 1024, and their sequences are equal. -/
theorem identifier_collision_iff (a d e : Nat) (w : IdWorker)
    (h : NewIdWorker a d e = (some w, none)) (n : Nat) (clock : List Int) :
    (nextIds n w clock).Pairwise (fun x y => x.1.2 = none → y.1.2 = none →
      (x.1.1 = y.1.1 ↔
        x.2.lastTimestamp ≠ y.2.lastTimestamp ∧
        x.2.lastTimestamp % 1024 = y.2.lastTimestamp % 1024 ∧
        x.2.sequence = y.2.sequence)) := by
  obtain ⟨rfl, ha, hd⟩ := NewIdWorker_ok h
  refine List.Pairwise.imp_of_mem ?_ (nextIds_pairwise n _ clock (by simp))
  intro x y hx hy hlt hxn hyn
  obtain ⟨x1, x2, x3, -, x5, -⟩ := nextIds_mem n _ clock x hx
  obtain ⟨y1, y2, y3, -, y5, -⟩ := nextIds_mem n _ clock y hy
  simp only at x1 x2 x3 y1 y2 y3
  have hk := hlt hxn hyn
  have hxs := (x5 hxn).2.1
  have hys := (y5 hyn).2.1
  rw [(x5 hxn).1, (y5 hyn).1, packId_eq x.2 _ (by omega) (by omega) hxs,
    packId_eq y.2 _ (by omega) (by omega) hys, x1, x2, x3, y1, y2, y3]
  unfold sub32
  constructor
  · intro heq
    omega
  · rintro ⟨-, h2, h3⟩
    have : (x.2.lastTimestamp + (2 ^ 32 - e % 2 ^ 32)) % 2 ^ 32 % 1024
        = (y.2.lastTimestamp + (2 ^ 32 - e % 2 ^ 32)) % 2 ^ 32 % 1024 := by omega
    rw [this, h3]

theorem identifier_collision_iff_witness :
    (nextIds 3 { sequence := 0, lastTimestamp := 1, workerId := 3,
                 snsEpoch := 0, datacenterId := 7 } [2000000, 2000000, 1026000000]).Pairwise
      (fun x y => x.1.2 = none → y.1.2 = none →
        (x.1.1 = y.1.1 ↔
          x.2.lastTimestamp ≠ y.2.lastTimestamp ∧
          x.2.lastTimestamp % 1024 = y.2.lastTimestamp % 1024 ∧
          x.2.sequence = y.2.sequence)) :=
  identifier_collision_iff 3 7 0 _ (by decide) 3 [2000000, 2000000, 1026000000]

/-- C2: two workers built by `NewIdWorker` with different (workerId, datacenterId)
pairs never return the same identifier from successful calls, whatever their
epochs, their clock readings and the internal state each run starts from. -/
theorem uniqueness_across_workers (a1 d1 e1 a2 d2 e2 : Nat) (w1 w2 : IdWorker)
    (h1 : NewIdWorker a1 d1 e1 = (some w1, none))
    (h2 : NewIdWorker a2 d2 e2 = (some w2, none))
    (hne : (a1, d1) ≠ (a2, d2))
    (s1 s2 : IdWorker)
    (i1 : s1.workerId = w1.workerId ∧ s1.datacenterId = w1.datacenterId)
    (i2 : s2.workerId = w2.workerId ∧ s2.datacenterId = w2.datacenterId)
    (n1 n2 : Nat) (clock1 clock2 : List Int) :
    ∀ x ∈ nextIds n1 s1 clock1, ∀ y ∈ nextIds n2 s2 clock2,
      x.1.2 = none → y.1.2 = none → x.1.1 ≠ y.1.1 := by
  obtain ⟨rfl, ha1, hd1⟩ := NewIdWorker_ok h1
  obtain ⟨rfl, ha2, hd2⟩ := NewIdWorker_ok h2
  intro x hx y hy hxn hyn heq
  obtain ⟨x1, x2, -, -, x5, -⟩ := nextIds_mem n1 s1 clock1 x hx
  obtain ⟨y1, y2, -, -, y5, -⟩ := nextIds_mem n2 s2 clock2 y hy
  simp only at i1 i2
  have kx := packId_identity x.2 x.2.lastTimestamp (by omega) (by omega) (x5 hxn).2.1
  have ky := packId_identity y.2 y.2.lastTimestamp (by omega) (by omega) (y5 hyn).2.1
  rw [← (x5 hxn).1] at kx
  rw [← (y5 hyn).1, ← heq, kx] at ky
  apply hne
  have ea : a1 = a2 := by omega
  have ed : d1 = d2 := by omega
  rw [ea, ed]

theorem uniqueness_across_workers_witness :
    nextIds 1 { sequence := 9, lastTimestamp := 2, workerId := 3, snsEpoch := 5,
                datacenterId := 7 } [3000000]
      = [((4287508480, none), { sequence := 0, lastTimestamp := 3, workerId := 3,
                                snsEpoch := 5, datacenterId := 7 })] ∧
    nextIds 1 { sequence := 0, lastTimestamp := 1, workerId := 4, snsEpoch := 0,
                datacenterId := 7 } [3000000]
      = [((13516800, none), { sequence := 0, lastTimestamp := 3, workerId := 4,
                              snsEpoch := 0, datacenterId := 7 })] ∧
    (4287508480 : Nat) ≠ 13516800 :=
  ⟨by decide, by decide,
   uniqueness_across_workers 3 7 5 4 7 0 _ _ rfl rfl (by decide)
    { sequence := 9, lastTimestamp := 2, workerId := 3, snsEpoch := 5, datacenterId := 7 }
    { sequence := 0, lastTimestamp := 1, workerId := 4, snsEpoch := 0, datacenterId := 7 }
    ⟨rfl, rfl⟩ ⟨rfl, rfl⟩ 1 1 [3000000] [3000000]
    ((4287508480, none),
      { sequence := 0, lastTimestamp := 3, workerId := 3, snsEpoch := 5, datacenterId := 7 })
    (by decide)
    ((13516800, none),
      { sequence := 0, lastTimestamp := 3, workerId := 4, snsEpoch := 0, datacenterId := 7 })
    (by decide) rfl rfl⟩

/-- C3: every identifier that a worker built by `NewIdWorker a d e` returns decodes
to the packed fields: bits 12-16 give `a`, bits 17-21 give `d`, the low twelve bits
give the sequence of the worker after the call, the bits from 22 up give the low ten
bits of the timestamp offset, and the four fields add up to the identifier, so they
do not overlap. -/
theorem field_decode (a d e : Nat) (w : IdWorker)
    (h : NewIdWorker a d e = (some w, none)) (n : Nat) (clock : List Int) :
    ∀ x ∈ nextIds n w clock, x.1.2 = none →
      (x.1.1 >>> 12) &&& 31 = a ∧ (x.1.1 >>> 17) &&& 31 = d ∧
      x.1.1 &&& 4095 = x.2.sequence ∧
      x.1.1 >>> 22 = sub32 x.2.lastTimestamp e % 1024 ∧
      x.1.1 = ((x.1.1 >>> 22) <<< 22) + (d <<< 17) + (a <<< 12) + x.2.sequence ∧
      x.1.1 >>> 22 < 2 ^ 10 ∧ d < 2 ^ 5 ∧ a < 2 ^ 5 ∧ x.2.sequence < 2 ^ 12 := by
  obtain ⟨rfl, ha, hd⟩ := NewIdWorker_ok h
  intro x hx hxn
  obtain ⟨x1, x2, x3, -, x5, -⟩ := nextIds_mem n _ clock x hx
  obtain ⟨hv, hs, -⟩ := x5 hxn
  simp only at x1 x2 x3
  have hp := packId_eq x.2 x.2.lastTimestamp (by omega) (by omega) hs
  rw [← hv, x1, x2, x3] at hp
  simp only [and31, and4095, Nat.shiftRight_eq_div_pow, Nat.shiftLeft_eq]
  generalize sub32 x.2.lastTimestamp e = o at hp ⊢
  omega

theorem field_decode_witness :
    nextIds 2 { sequence := 0, lastTimestamp := 1, workerId := 3, snsEpoch := 0,
                datacenterId := 7 } [2000000, 2000000]
      = [((9318400, none), { sequence := 0, lastTimestamp := 2, workerId := 3,
                             snsEpoch := 0, datacenterId := 7 }),
         ((9318401, none), { sequence := 1, lastTimestamp := 2, workerId := 3,
                             snsEpoch := 0, datacenterId := 7 })] ∧
    ((9318401 >>> 12) &&& 31 = 3 ∧ (9318401 >>> 17) &&& 31 = 7 ∧
      9318401 &&& 4095 = 1 ∧
      9318401 >>> 22 = sub32 2 0 % 1024 ∧
      9318401 = ((9318401 >>> 22) <<< 22) + (7 <<< 17) + (3 <<< 12) + 1 ∧
      9318401 >>> 22 < 2 ^ 10 ∧ 7 < 2 ^ 5 ∧ 3 < 2 ^ 5 ∧ 1 < 2 ^ 12) :=
  ⟨by decide,
   field_decode 3 7 0 _ rfl 2 [2000000, 2000000]
    ((9318401, none),
      { sequence := 1, lastTimestamp := 2, workerId := 3, snsEpoch := 0, datacenterId := 7 })
    (by decide) rfl⟩

/-- C4: `NewIdWorker` fails, returning no instance, exactly when `workerId > 31` or
`datacenterId > 31`; the error is the worker-id error whenever `workerId > 31` and
the datacenter-id error exactly when `workerId ≤ 31` and `datacenterId > 31`; with
both in range it returns an instance and no error, whatever the epoch. -/
theorem range_rejection (workerId datacenterId snsEpoch : Nat) :
    (((NewIdWorker workerId datacenterId snsEpoch).2 ≠ none ∧
        (NewIdWorker workerId datacenterId snsEpoch).1 = none) ↔
      (workerId > 31 ∨ datacenterId > 31)) ∧
    (workerId > 31 → NewIdWorker workerId datacenterId snsEpoch
      = (none, some (Error.workerIdError workerId))) ∧
    (NewIdWorker workerId datacenterId snsEpoch
      = (none, some (Error.datacenterIdError datacenterId)) ↔
      (workerId ≤ 31 ∧ datacenterId > 31)) ∧
    (workerId ≤ 31 → datacenterId ≤ 31 →
      ∃ w, NewIdWorker workerId datacenterId snsEpoch = (some w, none)) := by
  unfold NewIdWorker
  rw [maxWorkerId_eq, maxDatacenterId_eq]
  by_cases c1 : workerId > 31
  · simp [c1]
  · by_cases c2 : datacenterId > 31
    · simp [c1, c2]
      omega
    · simp [c1, c2]

theorem range_rejection_witness :
    NewIdWorker 32 0 7 = (none, some (Error.workerIdError 32)) ∧
    (∃ w, NewIdWorker 31 0 7 = (some w, none)) ∧
    (∃ w, NewIdWorker 0 31 7 = (some w, none)) ∧
    NewIdWorker 31 32 7 = (none, some (Error.datacenterIdError 32)) :=
  ⟨(range_rejection 32 0 7).2.1 (by decide),
   (range_rejection 31 0 7).2.2.2 (by decide) (by decide),
   (range_rejection 0 31 7).2.2.2 (by decide) (by decide),
   (range_rejection 31 32 7).2.2.1.2 ⟨by decide, by decide⟩⟩


/-- C5: a call that reads `now` on entry returns an error exactly when that reading
is below `lastTimestamp`; with a reading at or above it the call succeeds, provided
that, when the sequence wraps to zero, some later reading exceeds `lastTimestamp`.
A wrapped sequence is therefore never an error. -/
theorem rollback_only_failure (id : IdWorker) (now : Int) (clock : List Int) :
    ((∃ v e id1 clock1, NextId id (now :: clock) = some ((v, some e), id1, clock1)) ↔
      timeGen now < id.lastTimestamp) ∧
    (id.lastTimestamp ≤ timeGen now →
      (id.lastTimestamp = timeGen now ∧ add32 id.sequence 1 &&& sequenceMask = 0 →
        ∃ later ∈ clock, id.lastTimestamp < timeGen later) →
      ∃ v id1 clock1, NextId id (now :: clock) = some ((v, none), id1, clock1)) := by
  constructor
  · constructor
    · rintro ⟨v, e, id1, clock1, h⟩
      obtain ⟨-, -, nw, hc, hlt, -⟩ := NextId_err h
      simp only [List.cons.injEq] at hc
      rw [hc.1]
      exact hlt
    · intro hlt
      refine ⟨0, Error.clockMovedBackwards (sub32 id.lastTimestamp (timeGen now)), id,
        clock, ?_⟩
      simp only [NextId, if_pos hlt]
  · intro hge hwrap
    simp only [NextId]
    rw [if_neg (by omega)]
    split_ifs with c2 c3
    · obtain ⟨t, rest, ht⟩ := tilNextMillis_of_mem (hwrap ⟨c2, c3⟩)
      rw [ht]
      exact ⟨_, _, _, rfl⟩
    · exact ⟨_, _, _, rfl⟩
    · exact ⟨_, _, _, rfl⟩

theorem rollback_only_failure_witness :
    ∃ v id1 clock1,
      NextId { sequence := 4095, lastTimestamp := 5, workerId := 0,
               snsEpoch := 0, datacenterId := 0 } (5000000 :: [5000000, 6000000])
        = some ((v, none), id1, clock1) :=
  (rollback_only_failure
    { sequence := 4095, lastTimestamp := 5, workerId := 0, snsEpoch := 0, datacenterId := 0 }
    5000000 [5000000, 6000000]).2 (by decide) (fun _ => ⟨6000000, by decide, by decide⟩)

/-- C6: when the reading taken on entry is below `lastTimestamp`, `NextId` takes that
one reading only, returns identifier 0 with the clock-moved-backwards error, which
carries the difference, and leaves the worker as it was. -/
theorem rollback_atomic (id : IdWorker) (now : Int) (clock : List Int)
    (h : timeGen now < id.lastTimestamp) :
    NextId id (now :: clock) = some ((0, some (Error.clockMovedBackwards
      (sub32 id.lastTimestamp (timeGen now)))), id, clock) ∧
    (id.lastTimestamp < 2 ^ 32 →
      sub32 id.lastTimestamp (timeGen now) = id.lastTimestamp - timeGen now) := by
  constructor
  · simp only [NextId, if_pos h]
  · intro hb
    have := timeGen_lt now
    unfold sub32
    omega

theorem rollback_atomic_witness :
    NextId { sequence := 3, lastTimestamp := 9, workerId := 1,
             snsEpoch := 0, datacenterId := 2 } (4000000 :: [9000000])
      = some ((0, some (Error.clockMovedBackwards (sub32 9 (timeGen 4000000)))),
          { sequence := 3, lastTimestamp := 9, workerId := 1,
            snsEpoch := 0, datacenterId := 2 }, [9000000]) :=
  (rollback_atomic { sequence := 3, lastTimestamp := 9, workerId := 1,
                     snsEpoch := 0, datacenterId := 2 } 4000000 [9000000] (by decide)).1


/-- C7 does not hold of the code: of two consecutive successful calls with no
rollback between them the second can return a smaller identifier although the
timestamp advanced.  The worker `NewIdWorker 0 0 0` reads the clock at 1023 ms and
then at 1024 ms and returns 4290772992 and then 0; the worker
`NewIdWorker 0 0 SnsEpoch` reads the clock on 2026-11-04 at 12:00:00.408 UTC and
1 ms later and returns 4290772992 and then 0. -/
theorem monotonicity_counterexample :
    NewIdWorker 0 0 0 = (some { sequence := 0, lastTimestamp := 1, workerId := 0,
                                snsEpoch := 0, datacenterId := 0 }, none) ∧
    nextIds 2 { sequence := 0, lastTimestamp := 1, workerId := 0,
                snsEpoch := 0, datacenterId := 0 } [1023000000, 1024000000]
      = [((4290772992, none), { sequence := 0, lastTimestamp := 1023, workerId := 0,
                                snsEpoch := 0, datacenterId := 0 }),
         ((0, none), { sequence := 0, lastTimestamp := 1024, workerId := 0,
                       snsEpoch := 0, datacenterId := 0 })] ∧
    ¬ ((4290772992 : Nat) ≤ 0) ∧
    NewIdWorker 0 0 SnsEpoch
      = (some { sequence := 0, lastTimestamp := 1, workerId := 0,
                snsEpoch := 1490595737, datacenterId := 0 }, none) ∧
    nextIds 2 { sequence := 0, lastTimestamp := 1, workerId := 0,
                snsEpoch := 1490595737, datacenterId := 0 }
        [1793793600408000000, 1793793600409000000]
      = [((4290772992, none), { sequence := 0, lastTimestamp := 2792237976, workerId := 0,
                                snsEpoch := 1490595737, datacenterId := 0 }),
         ((0, none), { sequence := 0, lastTimestamp := 2792237977, workerId := 0,
                       snsEpoch := 1490595737, datacenterId := 0 })] := by
  decide

/-- The extent of the ordering: on a worker built by `NewIdWorker`, of two successful
calls of a run, adjacent or not, the later one returns the greater identifier exactly
when the low ten bits of its timestamp offset are greater, or are equal with a
greater sequence; calls with the same timestamp are always in order. -/
theorem identifier_order_iff (a d e : Nat) (w : IdWorker)
    (h : NewIdWorker a d e = (some w, none)) (n : Nat) (clock : List Int) :
    (nextIds n w clock).Pairwise (fun x y => x.1.2 = none → y.1.2 = none →
      (x.1.1 < y.1.1 ↔
        sub32 x.2.lastTimestamp e % 1024 < sub32 y.2.lastTimestamp e % 1024 ∨
        (sub32 x.2.lastTimestamp e % 1024 = sub32 y.2.lastTimestamp e % 1024 ∧
          x.2.sequence < y.2.sequence)) ∧
      (x.2.lastTimestamp = y.2.lastTimestamp → x.1.1 < y.1.1)) := by
  obtain ⟨rfl, ha, hd⟩ := NewIdWorker_ok h
  refine List.Pairwise.imp_of_mem ?_ (nextIds_pairwise n _ clock (by simp))
  intro x y hx hy hlt hxn hyn
  obtain ⟨x1, x2, x3, -, x5, -⟩ := nextIds_mem n _ clock x hx
  obtain ⟨y1, y2, y3, -, y5, -⟩ := nextIds_mem n _ clock y hy
  simp only at x1 x2 x3 y1 y2 y3
  have hk := hlt hxn hyn
  have hxs := (x5 hxn).2.1
  have hys := (y5 hyn).2.1
  rw [(x5 hxn).1, (y5 hyn).1, packId_eq x.2 _ (by omega) (by omega) hxs,
    packId_eq y.2 _ (by omega) (by omega) hys, x1, x2, x3, y1, y2, y3]
  constructor
  · generalize sub32 x.2.lastTimestamp e = ox
    generalize sub32 y.2.lastTimestamp e = oy
    omega
  · intro heq
    rw [heq] at hk ⊢
    omega

theorem identifier_order_iff_witness :
    (nextIds 3 { sequence := 0, lastTimestamp := 1, workerId := 3,
                 snsEpoch := 0, datacenterId := 7 } [1000000000, 1000000000, 2040000000]).Pairwise
      (fun x y => x.1.2 = none → y.1.2 = none →
        (x.1.1 < y.1.1 ↔
          sub32 x.2.lastTimestamp 0 % 1024 < sub32 y.2.lastTimestamp 0 % 1024 ∨
          (sub32 x.2.lastTimestamp 0 % 1024 = sub32 y.2.lastTimestamp 0 % 1024 ∧
            x.2.sequence < y.2.sequence)) ∧
        (x.2.lastTimestamp = y.2.lastTimestamp → x.1.1 < y.1.1)) :=
  identifier_order_iff 3 7 0 _ (by decide) 3 [1000000000, 1000000000, 2040000000]

/-- C8: a successful call leaves `lastTimestamp` at or above its old value and equal
to the timestamp packed into the returned identifier; a failed call leaves the
worker unchanged; so along every run of calls `lastTimestamp` never decreases. -/
theorem lastTimestamp_never_decreases (id : IdWorker) (clock : List Int) :
    (∀ v id1 clock1, NextId id clock = some ((v, none), id1, clock1) →
      id.lastTimestamp ≤ id1.lastTimestamp ∧
      v = shl32 (sub32 id1.lastTimestamp id1.snsEpoch) timestampLeftShift
            ||| shl32 id1.datacenterId datacenterIdShift
            ||| shl32 id1.workerId workerIdShift ||| id1.sequence) ∧
    (∀ v e id1 clock1, NextId id clock = some ((v, some e), id1, clock1) → id1 = id) ∧
    (∀ n, List.Pairwise (fun s t => s ≤ t)
      (id.lastTimestamp :: (nextIds n id clock).map (fun x => x.2.lastTimestamp))) := by
  refine ⟨?_, ?_, fun n => nextIds_lastTimestamp n id clock⟩
  · intro v id1 clock1 h
    have iss := NextId_ok h
    have hp := iss.progress
    exact ⟨by omega, iss.value⟩
  · intro v e id1 clock1 h
    exact (NextId_err h).2.1

theorem lastTimestamp_never_decreases_witness :
    (5 : Nat) ≤ 7 ∧ (29360128 : Nat)
      = shl32 (sub32 7 0) timestampLeftShift ||| shl32 0 datacenterIdShift
          ||| shl32 0 workerIdShift ||| 0 :=
  (lastTimestamp_never_decreases
    { sequence := 4095, lastTimestamp := 5, workerId := 0, snsEpoch := 0, datacenterId := 0 }
    [5000000, 4000000, 7000000]).1 29360128
    { sequence := 0, lastTimestamp := 7, workerId := 0, snsEpoch := 0, datacenterId := 0 } []
    (by decide)

/-- C9: a worker whose `lastTimestamp` is below `t` is called 4097 times while the
clock reads `t` at each entry.  The first 4096 calls return identifiers stamped `t`
with sequence fields 0, 1, ..., 4095 in that order; the last call waits through the
readings that are not above `t` and returns an identifier with sequence field 0
stamped with the first reading above `t`, which becomes `lastTimestamp`. -/
theorem sequence_rollover (id : IdWorker) (t : Nat) (hlt : id.lastTimestamp < t)
    (same spin : List Int) (next : Int) (rest : List Int)
    (hlen : same.length = 4097) (hsame : ∀ now ∈ same, timeGen now = t)
    (hspin : ∀ now ∈ spin, timeGen now ≤ t) (hnext : t < timeGen next) :
    nextIds 4097 id (same ++ (spin ++ next :: rest))
      = (List.range 4096).map (fun k =>
          ((packId { id with sequence := k, lastTimestamp := t } t, none),
            { id with sequence := k, lastTimestamp := t }))
        ++ [((packId { id with sequence := 0, lastTimestamp := timeGen next } (timeGen next),
              none), { id with sequence := 0, lastTimestamp := timeGen next })] ∧
    (∀ k < 4096, packId { id with sequence := k, lastTimestamp := t } t &&& 4095 = k) ∧
    packId { id with sequence := 0, lastTimestamp := timeGen next } (timeGen next) &&& 4095
      = 0 := by
  refine ⟨?_, ?_, ?_⟩
  · cases same with
    | nil => simp at hlen
    | cons n0 tl =>
      have htl : tl.length = 4096 := by simpa using hlen
      have hmid0 : (tl.take 4095).length = 4095 := by simp [htl]
      have hdrop : (tl.drop 4095).length = 1 := by simp [htl]
      obtain ⟨nl, hnl⟩ := List.length_eq_one.1 hdrop
      obtain ⟨mid, hmid, hsplit⟩ : ∃ mid : List Int, mid.length = 4095 ∧ tl = mid ++ [nl] :=
        ⟨tl.take 4095, hmid0, by rw [← hnl, List.take_append_drop]⟩
      subst hsplit
      have hmem : ∀ now ∈ mid ++ [nl], timeGen now = t :=
        fun x hx => hsame x (List.mem_cons_of_mem _ hx)
      have hfirst : NextId id (n0 :: ((mid ++ [nl]) ++ (spin ++ next :: rest)))
          = some ((packId { id with sequence := 0, lastTimestamp := t } t, none),
              { id with sequence := 0, lastTimestamp := t },
              (mid ++ [nl]) ++ (spin ++ next :: rest)) := by
        have h0 := hsame n0 (List.mem_cons_self _ _)
        simp only [NextId, h0, emit]
        rw [if_neg (by omega), if_neg (by omega)]
      have hlast : NextId { id with sequence := 0 + mid.length, lastTimestamp := t }
          (nl :: (spin ++ next :: rest))
          = some ((packId { id with sequence := 0, lastTimestamp := timeGen next } (timeGen next),
              none), { id with sequence := 0, lastTimestamp := timeGen next }, rest) := by
        have h1 : timeGen nl = t := hmem nl (by simp)
        have e : (0 + mid.length + 1) % 4096 = 0 := by rw [hmid]
        simp only [NextId, seq_step, h1, lt_irrefl, if_false, if_true, e,
          tilNextMillis_append t next rest hnext spin hspin, emit]
      have hrun := nextIds_same_ms t id mid 0 1 (nl :: (spin ++ next :: rest))
        (fun x hx => hmem x (List.mem_append_left _ hx)) (by rw [hmid])
      rw [nextIds_succ_some hlast] at hrun
      have e1 : (4097 : Nat) = (mid.length + 1) + 1 := by rw [hmid]
      have e2 : (4096 : Nat) = mid.length + 1 := by rw [hmid]
      rw [List.cons_append, e1, nextIds_succ_some hfirst, List.append_assoc,
        List.singleton_append, hrun, e2, List.range_succ_eq_map, List.map_cons, List.map_map,
        List.cons_append]
      simp only [nextIds, List.append_nil]
      congr 2
      apply List.map_congr_left
      intro j _
      simp only [Function.comp, Nat.succ_eq_add_one]
      have e3 : 0 + 1 + j = j + 1 := by omega
      rw [e3]
  · intro k hk
    rw [and4095]
    exact packId_mod _ _ (by simp only; omega)
  · rw [and4095]
    exact packId_mod _ _ (by simp)

theorem sequence_rollover_witness :
    nextIds 4097 { sequence := 7, lastTimestamp := 4, workerId := 1,
                   snsEpoch := 0, datacenterId := 2 }
        (List.replicate 4097 5000000 ++ ([5000000, 4000000] ++ 6000000 :: [7000000]))
      = (List.range 4096).map (fun k =>
          ((packId { sequence := k, lastTimestamp := 5, workerId := 1,
                     snsEpoch := 0, datacenterId := 2 } 5, none),
            { sequence := k, lastTimestamp := 5, workerId := 1, snsEpoch := 0, datacenterId := 2 }))
        ++ [((packId { sequence := 0, lastTimestamp := timeGen 6000000, workerId := 1,
                       snsEpoch := 0, datacenterId := 2 }
              (timeGen 6000000), none),
             { sequence := 0, lastTimestamp := timeGen 6000000, workerId := 1,
               snsEpoch := 0, datacenterId := 2 })] ∧
    (∀ k < 4096,
      packId { sequence := k, lastTimestamp := 5, workerId := 1,
               snsEpoch := 0, datacenterId := 2 } 5 &&& 4095 = k) ∧
    packId { sequence := 0, lastTimestamp := timeGen 6000000, workerId := 1,
             snsEpoch := 0, datacenterId := 2 }
      (timeGen 6000000) &&& 4095 = 0 :=
  sequence_rollover { sequence := 7, lastTimestamp := 4, workerId := 1,
                      snsEpoch := 0, datacenterId := 2 } 5
    (by decide) (List.replicate 4097 5000000) [5000000, 4000000] 6000000 [7000000]
    (List.length_replicate 4097 5000000)
    (fun now h => by rw [List.eq_of_mem_replicate h]; decide)
    (by decide) (by decide)

/-- C10: after a successful call that read `now` on entry, the sequence is 0 when the
reading exceeds the old `lastTimestamp`, and the old sequence plus one modulo 4096
when the reading equals it. -/
theorem sequence_update (id : IdWorker) (now : Int) (clock : List Int) (v : Nat)
    (id1 : IdWorker) (clock1 : List Int)
    (h : NextId id (now :: clock) = some ((v, none), id1, clock1)) :
    (id.lastTimestamp < timeGen now → id1.sequence = 0) ∧
    (timeGen now = id.lastTimestamp → id1.sequence = (id.sequence + 1) % 4096) := by
  rcases NextId_cons_ok h with ⟨h1, -, h3, -⟩ | ⟨h1, h2, -⟩
  · exact ⟨fun _ => h3, fun c => by omega⟩
  · exact ⟨fun c => by omega, fun _ => h2⟩

theorem sequence_update_witness :
    (((5 : Nat) < timeGen 6000000 → (0 : Nat) = 0) ∧
      (timeGen 6000000 = 5 → (0 : Nat) = (17 + 1) % 4096)) ∧
    (((5 : Nat) < timeGen 5000000 → (18 : Nat) = 0) ∧
      (timeGen 5000000 = 5 → (18 : Nat) = (17 + 1) % 4096)) :=
  ⟨sequence_update
    { sequence := 17, lastTimestamp := 5, workerId := 0, snsEpoch := 0, datacenterId := 0 }
    6000000 [] 25165824
    { sequence := 0, lastTimestamp := 6, workerId := 0, snsEpoch := 0, datacenterId := 0 } []
    (by decide),
   sequence_update
    { sequence := 17, lastTimestamp := 5, workerId := 0, snsEpoch := 0, datacenterId := 0 }
    5000000 [] 20971538
    { sequence := 18, lastTimestamp := 5, workerId := 0, snsEpoch := 0, datacenterId := 0 } []
    (by decide)⟩

/-- C11: the sequence of the worker that `NewIdWorker` returns is at most 4095, and
every call of `NextId`, successful or failed, keeps it at most 4095; a returned
identifier is a multiple of 4096 that does not depend on the sequence, plus the
sequence, so the sequence stays in the low twelve bits, below the workerId bits. -/
theorem sequence_bound (a d e : Nat) (id : IdWorker) (clock : List Int) :
    (∀ w, NewIdWorker a d e = (some w, none) → 0 ≤ w.sequence ∧ w.sequence ≤ 4095) ∧
    (∀ r id1 clock1, id.sequence ≤ 4095 → NextId id clock = some (r, id1, clock1) →
      0 ≤ id1.sequence ∧ id1.sequence ≤ 4095 ∧
      (r.2 = none →
        r.1 = packId { id1 with sequence := 0 } id1.lastTimestamp + id1.sequence ∧
        packId { id1 with sequence := 0 } id1.lastTimestamp % 4096 = 0)) ∧
    (∀ n, id.sequence ≤ 4095 → ∀ x ∈ nextIds n id clock, x.2.sequence ≤ 4095) := by
  refine ⟨?_, ?_, ?_⟩
  · intro w h
    obtain ⟨rfl, -, -⟩ := NewIdWorker_ok h
    simp
  · intro r id1 clock1 hs h
    rcases NextId_some h with ⟨hne, -, rfl⟩ | ⟨hn, hi⟩
    · exact ⟨Nat.zero_le _, hs, fun c => absurd c hne⟩
    · refine ⟨Nat.zero_le _, hi.bound, fun _ => ?_⟩
      rw [hi.value]
      exact packId_split id1 id1.lastTimestamp hi.bound
  · intro n hs x hx
    exact ((nextIds_mem n id clock x hx).2.2.2.2.2 hs).1

theorem sequence_bound_witness :
    (0 ≤ 4095 ∧ 4095 ≤ 4095 ∧
      ((none : Option Error) = none →
        20975615 = packId { sequence := 0, lastTimestamp := 5, workerId := 0,
                            snsEpoch := 0, datacenterId := 0 } 5 + 4095 ∧
        packId { sequence := 0, lastTimestamp := 5, workerId := 0,
                 snsEpoch := 0, datacenterId := 0 } 5 % 4096 = 0)) ∧
    (0 ≤ 0 ∧ 0 ≤ 4095 ∧
      ((none : Option Error) = none →
        25165824 = packId { sequence := 0, lastTimestamp := 6, workerId := 0,
                            snsEpoch := 0, datacenterId := 0 } 6 + 0 ∧
        packId { sequence := 0, lastTimestamp := 6, workerId := 0,
                 snsEpoch := 0, datacenterId := 0 } 6 % 4096 = 0)) :=
  ⟨(sequence_bound 0 0 0
      { sequence := 4094, lastTimestamp := 5, workerId := 0, snsEpoch := 0, datacenterId := 0 }
      [5000000]).2.1 (20975615, none)
      { sequence := 4095, lastTimestamp := 5, workerId := 0, snsEpoch := 0, datacenterId := 0 }
      [] (by decide) (by decide),
   (sequence_bound 0 0 0
      { sequence := 4095, lastTimestamp := 5, workerId := 0, snsEpoch := 0, datacenterId := 0 }
      [5000000, 6000000]).2.1 (25165824, none)
      { sequence := 0, lastTimestamp := 6, workerId := 0, snsEpoch := 0, datacenterId := 0 }
      [] (by decide) (by decide)⟩

/-- C12: a call of `NextId`, successful or failed, returns a worker with the same
workerId, datacenterId and epoch; the worker after the call is the worker before it
with at most `sequence` and `lastTimestamp` replaced. -/
theorem identity_immutable (id : IdWorker) (clock : List Int) (r : Nat × Option Error)
    (id1 : IdWorker) (clock1 : List Int) (h : NextId id clock = some (r, id1, clock1)) :
    id1.workerId = id.workerId ∧ id1.datacenterId = id.datacenterId ∧
    id1.snsEpoch = id.snsEpoch ∧
    id1 = { id with sequence := id1.sequence, lastTimestamp := id1.lastTimestamp } := by
  rcases NextId_some h with ⟨-, -, rfl⟩ | ⟨-, hi⟩
  · exact ⟨rfl, rfl, rfl, rfl⟩
  · refine ⟨hi.workerId, hi.datacenterId, hi.snsEpoch, ?_⟩
    cases id1
    cases id
    simp only [IdWorker.mk.injEq, true_and]
    exact ⟨hi.workerId, hi.snsEpoch, hi.datacenterId⟩

theorem identity_immutable_witness :
    NextId { sequence := 17, lastTimestamp := 5, workerId := 3, snsEpoch := 9,
             datacenterId := 4 } [5000000]
      = some ((4278726674, none), { sequence := 18, lastTimestamp := 5, workerId := 3,
                                    snsEpoch := 9, datacenterId := 4 }, []) ∧
    NextId { sequence := 17, lastTimestamp := 5, workerId := 3, snsEpoch := 9,
             datacenterId := 4 } [4000000]
      = some ((0, some (Error.clockMovedBackwards 1)),
          { sequence := 17, lastTimestamp := 5, workerId := 3, snsEpoch := 9,
            datacenterId := 4 }, []) ∧
    ((3 : Nat) = 3 ∧ (4 : Nat) = 4 ∧ (9 : Nat) = 9 ∧
      ({ sequence := 18, lastTimestamp := 5, workerId := 3, snsEpoch := 9,
         datacenterId := 4 } : IdWorker)
        = { sequence := 18, lastTimestamp := 5, workerId := 3, snsEpoch := 9,
            datacenterId := 4 }) :=
  ⟨by decide, by decide,
   identity_immutable
    { sequence := 17, lastTimestamp := 5, workerId := 3, snsEpoch := 9, datacenterId := 4 }
    [5000000] (4278726674, none)
    { sequence := 18, lastTimestamp := 5, workerId := 3, snsEpoch := 9, datacenterId := 4 }
    [] (by decide)⟩

/-- C14: from a worker with workerId and datacenterId at most 31, a successful call
that ends with timestamp `t` and sequence `s` returns
`(((t - epoch) mod 2^32) * 2^22 + datacenterId * 2^17 + workerId * 2^12 + s) mod 2^32`;
the bits of the identifier from 22 up are `(t - epoch) mod 1024`. -/
theorem identifier_composition (id : IdWorker) (clock : List Int) (v : Nat) (id1 : IdWorker)
    (clock1 : List Int) (hw : id.workerId ≤ 31) (hd : id.datacenterId ≤ 31)
    (h : NextId id clock = some ((v, none), id1, clock1)) :
    v = (sub32 id1.lastTimestamp id.snsEpoch * 2 ^ 22 + id.datacenterId * 2 ^ 17
          + id.workerId * 2 ^ 12 + id1.sequence) % 2 ^ 32 ∧
    (sub32 id1.lastTimestamp id.snsEpoch : Int)
      = ((id1.lastTimestamp : Int) - (id.snsEpoch : Int)) % 2 ^ 32 ∧
    v >>> 22 = sub32 id1.lastTimestamp id.snsEpoch % 1024 ∧
    ((v >>> 22 : Nat) : Int) = ((id1.lastTimestamp : Int) - (id.snsEpoch : Int)) % 1024 := by
  have hi := NextId_ok h
  have hv := hi.value
  have hb := hi.bound
  rw [packId_eq id1 _ (by rw [hi.workerId]; exact hw) (by rw [hi.datacenterId]; exact hd) hb,
    hi.workerId, hi.datacenterId, hi.snsEpoch] at hv
  have hsub : (sub32 id1.lastTimestamp id.snsEpoch : Int)
      = ((id1.lastTimestamp : Int) - (id.snsEpoch : Int)) % 2 ^ 32 := by
    unfold sub32
    push_cast
    omega
  rw [Nat.shiftRight_eq_div_pow]
  generalize sub32 id1.lastTimestamp id.snsEpoch = o at hv hsub ⊢
  refine ⟨by omega, hsub, by omega, ?_⟩
  push_cast
  omega

theorem identifier_composition_witness :
    (4278726674 : Nat) = (sub32 5 9 * 2 ^ 22 + 4 * 2 ^ 17 + 3 * 2 ^ 12 + 18) % 2 ^ 32 ∧
    (sub32 5 9 : Int) = (((5 : Nat) : Int) - ((9 : Nat) : Int)) % 2 ^ 32 ∧
    4278726674 >>> 22 = sub32 5 9 % 1024 ∧
    ((4278726674 >>> 22 : Nat) : Int) = (((5 : Nat) : Int) - ((9 : Nat) : Int)) % 1024 :=
  identifier_composition
    { sequence := 17, lastTimestamp := 5, workerId := 3, snsEpoch := 9, datacenterId := 4 }
    [5000000] 4278726674
    { sequence := 18, lastTimestamp := 5, workerId := 3, snsEpoch := 9, datacenterId := 4 }
    [] (by decide) (by decide) (by decide)

/-- C15: with workerId and datacenterId at most 31, `NewIdWorker` returns no error and
a worker that holds the three arguments, sequence 0 and lastTimestamp 1. -/
theorem construction_result (workerId datacenterId snsEpoch : Nat) (hw : workerId ≤ 31)
    (hd : datacenterId ≤ 31) :
    NewIdWorker workerId datacenterId snsEpoch
      = (some { sequence := 0, lastTimestamp := 1, workerId := workerId,
                snsEpoch := snsEpoch, datacenterId := datacenterId }, none) := by
  unfold NewIdWorker
  rw [maxWorkerId_eq, maxDatacenterId_eq, if_neg (by omega), if_neg (by omega)]

theorem construction_result_witness :
    NewIdWorker 31 0 1490595737
      = (some { sequence := 0, lastTimestamp := 1, workerId := 31,
                snsEpoch := 1490595737, datacenterId := 0 }, none) :=
  construction_result 31 0 1490595737 (by decide) (by decide)

/-- C16: when some reading of the clock exceeds `lastTimestamp`, `tilNextMillis`
returns: its result is the first reading above `lastTimestamp`, every reading
before that one is skipped, and the clock is left just after it. -/
theorem tilNextMillis_first_later (lastTimestamp : Nat) (clock : List Int)
    (h : ∃ now ∈ clock, lastTimestamp < timeGen now) :
    ∃ skipped now rest, clock = skipped ++ now :: rest ∧
      (∀ s ∈ skipped, timeGen s ≤ lastTimestamp) ∧ lastTimestamp < timeGen now ∧
      tilNextMillis lastTimestamp clock = some (timeGen now, rest) := by
  obtain ⟨t, rest, ht⟩ := tilNextMillis_of_mem h
  obtain ⟨hlt, -, pre, now, hc, rfl, hpre⟩ := tilNextMillis_some ht
  exact ⟨pre, now, rest, hc, hpre, hlt, ht⟩

theorem tilNextMillis_first_later_witness :
    tilNextMillis 5 [5000000, 4000000, 7000000, 6000000] = some (7, [6000000]) ∧
    ∃ skipped now rest, [5000000, 4000000, 7000000, 6000000] = skipped ++ now :: rest ∧
      (∀ s ∈ skipped, timeGen s ≤ 5) ∧ 5 < timeGen now ∧
      tilNextMillis 5 [5000000, 4000000, 7000000, 6000000] = some (timeGen now, rest) :=
  ⟨by decide, tilNextMillis_first_later 5 [5000000, 4000000, 7000000, 6000000]
    ⟨7000000, by decide, by decide⟩⟩

/-- C17: from a worker with sequence at most 4095, a successful call ends with the
pair (lastTimestamp, sequence) strictly greater in lexicographic order; so in a run
no two successful calls end with the same pair. -/
theorem strict_progress (id : IdWorker) (clock : List Int) (hs : id.sequence ≤ 4095) :
    (∀ v id1 clock1, NextId id clock = some ((v, none), id1, clock1) →
      id.lastTimestamp < id1.lastTimestamp ∨
        (id.lastTimestamp = id1.lastTimestamp ∧ id.sequence < id1.sequence)) ∧
    (∀ n, (nextIds n id clock).Pairwise (fun x y => x.1.2 = none → y.1.2 = none →
      (x.2.lastTimestamp, x.2.sequence) ≠ (y.2.lastTimestamp, y.2.sequence))) := by
  constructor
  · intro v id1 clock1 h
    have hp := (NextId_ok h).progress
    omega
  · intro n
    refine List.Pairwise.imp ?_ (nextIds_pairwise n id clock hs)
    intro x y hlt hxn hyn heq
    have := hlt hxn hyn
    simp only [Prod.mk.injEq] at heq
    omega

theorem strict_progress_witness :
    ((5 : Nat) < 5 ∨ ((5 : Nat) = 5 ∧ (17 : Nat) < 18)) ∧
    ((5 : Nat) < 6 ∨ ((5 : Nat) = 6 ∧ (4095 : Nat) < 0)) :=
  ⟨(strict_progress
      { sequence := 17, lastTimestamp := 5, workerId := 3, snsEpoch := 9, datacenterId := 4 }
      [5000000] (by decide)).1 4278726674
      { sequence := 18, lastTimestamp := 5, workerId := 3, snsEpoch := 9, datacenterId := 4 }
      [] (by decide),
   (strict_progress
      { sequence := 4095, lastTimestamp := 5, workerId := 0, snsEpoch := 0, datacenterId := 0 }
      [5000000, 6000000] (by decide)).1 25165824
      { sequence := 0, lastTimestamp := 6, workerId := 0, snsEpoch := 0, datacenterId := 0 }
      [] (by decide)⟩

/-- C18: on a worker built by `NewIdWorker`, two successful calls of a run whose
timestamps are less than 1024 ms apart return different identifiers. -/
theorem windowed_uniqueness (a d e : Nat) (w : IdWorker)
    (h : NewIdWorker a d e = (some w, none)) (n : Nat) (clock : List Int) :
    (nextIds n w clock).Pairwise (fun x y => x.1.2 = none → y.1.2 = none →
      x.2.lastTimestamp < y.2.lastTimestamp + 1024 →
      y.2.lastTimestamp < x.2.lastTimestamp + 1024 → x.1.1 ≠ y.1.1) := by
  obtain ⟨rfl, ha, hd⟩ := NewIdWorker_ok h
  refine List.Pairwise.imp_of_mem ?_ (nextIds_pairwise n _ clock (by simp))
  intro x y hx hy hlt hxn hyn h1 h2
  obtain ⟨x1, x2, x3, -, x5, -⟩ := nextIds_mem n _ clock x hx
  obtain ⟨y1, y2, y3, -, y5, -⟩ := nextIds_mem n _ clock y hy
  rw [(x5 hxn).1, (y5 hyn).1]
  exact packId_ne (x1.trans y1.symm) (by rw [y1]; exact ha) (x2.trans y2.symm)
    (by rw [y2]; exact hd) (x3.trans y3.symm) (x5 hxn).2.1 (y5 hyn).2.1 (hlt hxn hyn)
    (by omega)

theorem windowed_uniqueness_witness :
    nextIds 3 { sequence := 0, lastTimestamp := 1, workerId := 3, snsEpoch := 0,
                datacenterId := 7 } [2000000, 2000000, 1025000000]
      = [((9318400, none), { sequence := 0, lastTimestamp := 2, workerId := 3,
                             snsEpoch := 0, datacenterId := 7 }),
         ((9318401, none), { sequence := 1, lastTimestamp := 2, workerId := 3,
                             snsEpoch := 0, datacenterId := 7 }),
         ((5124096, none), { sequence := 0, lastTimestamp := 1025, workerId := 3,
                             snsEpoch := 0, datacenterId := 7 })] ∧
    (nextIds 3 { sequence := 0, lastTimestamp := 1, workerId := 3, snsEpoch := 0,
                 datacenterId := 7 } [2000000, 2000000, 1025000000]).Pairwise
      (fun x y => x.1.2 = none → y.1.2 = none →
        x.2.lastTimestamp < y.2.lastTimestamp + 1024 →
        y.2.lastTimestamp < x.2.lastTimestamp + 1024 → x.1.1 ≠ y.1.1) :=
  ⟨by decide,
   windowed_uniqueness 3 7 0 _ (by decide) 3 [2000000, 2000000, 1025000000]⟩

/-- C19: the first call on a worker just returned by `NewIdWorker`, with entry
reading `t`: for `t = 0` it fails with the clock-moved-backwards error and leaves
the worker as built; for `t = 1`, the placeholder value of lastTimestamp, it
returns an identifier with sequence field 1; for `t ≥ 2` it returns an identifier
with sequence field 0 and sets lastTimestamp to `t`. -/
theorem first_call (a d e : Nat) (w : IdWorker) (h : NewIdWorker a d e = (some w, none))
    (now : Int) (clock : List Int) :
    (timeGen now = 0 →
      NextId w (now :: clock) = some ((0, some (Error.clockMovedBackwards 1)), w, clock)) ∧
    (timeGen now = 1 → ∃ v,
      NextId w (now :: clock)
        = some ((v, none), { w with sequence := 1, lastTimestamp := 1 }, clock) ∧
      v &&& 4095 = 1) ∧
    (2 ≤ timeGen now → ∃ v,
      NextId w (now :: clock)
        = some ((v, none), { w with sequence := 0, lastTimestamp := timeGen now }, clock) ∧
      v &&& 4095 = 0) := by
  obtain ⟨rfl, -, -⟩ := NewIdWorker_ok h
  refine ⟨?_, ?_, ?_⟩
  · intro ht
    have hsub : sub32 1 0 = 1 := by decide
    simp only [NextId, ht]
    rw [if_pos (by omega), hsub]
  · intro ht
    refine ⟨packId { sequence := 1, lastTimestamp := 1, workerId := a, snsEpoch := e,
                     datacenterId := d } 1, ?_, ?_⟩
    · simp only [NextId, ht, seq_step, emit]
      rfl
    · rw [and4095]
      exact packId_mod _ _ (by simp)
  · intro ht
    refine ⟨packId { sequence := 0, lastTimestamp := timeGen now, workerId := a, snsEpoch := e,
                     datacenterId := d } (timeGen now), ?_, ?_⟩
    · simp only [NextId, emit]
      rw [if_neg (by omega), if_neg (by omega)]
    · rw [and4095]
      exact packId_mod _ _ (by simp)

theorem first_call_witness :
    NextId { sequence := 0, lastTimestamp := 1, workerId := 3, snsEpoch := 0,
             datacenterId := 7 } (999999 :: [])
      = some ((0, some (Error.clockMovedBackwards 1)),
          { sequence := 0, lastTimestamp := 1, workerId := 3, snsEpoch := 0,
            datacenterId := 7 }, []) ∧
    (∃ v, NextId { sequence := 0, lastTimestamp := 1, workerId := 3, snsEpoch := 0,
                   datacenterId := 7 } (1000000 :: [])
        = some ((v, none), { sequence := 1, lastTimestamp := 1, workerId := 3,
                             snsEpoch := 0, datacenterId := 7 }, []) ∧
      v &&& 4095 = 1) ∧
    (∃ v, NextId { sequence := 0, lastTimestamp := 1, workerId := 3, snsEpoch := 0,
                   datacenterId := 7 } (2000000 :: [])
        = some ((v, none), { sequence := 0, lastTimestamp := timeGen 2000000, workerId := 3,
                             snsEpoch := 0, datacenterId := 7 }, []) ∧
      v &&& 4095 = 0) :=
  ⟨(first_call 3 7 0 _ rfl 999999 []).1 (by decide),
   (first_call 3 7 0 _ rfl 1000000 []).2.1 (by decide),
   (first_call 3 7 0 _ rfl 2000000 []).2.2 (by decide)⟩

end Util
